import Mathlib

/-!
Shallow embedding of the Synaptics DSX touchscreen firmware-update engine
(`synaptics_dsx_fw_update.c`), covering the go/no-go update decision, image
size validation, erase sequencing, partition-table comparison, TDAT image
validation, descriptor-table scanning, recovery chunking, the completion
wait, and the exported update entry point.  Machine integers are modelled as
`Nat` with explicit `% 2^w` where C truncation matters; fallible paths return
`Int` status codes mirroring the kernel's `0` / negative-errno convention.
-/

namespace SynDsxFwu

/-- Linux errno values used by the driver (from the kernel headers). -/
def EINVAL : Int := 22

/-- Errno for a missing device. -/
def ENODEV : Int := 19

/-- Errno for a timed-out wait. -/
def ETIMEDOUT : Int := 110

/-- Enum `bl_version` from the source (`BL_V5 = 5, BL_V6 = 6, BL_V7 = 7, BL_V8 = 8`). -/
inductive BlVersion where
  | v5
  | v6
  | v7
  | v8
deriving DecidableEq, Repr

/-- Numeric value of the `bl_version` enum constant, used for the source's
ordered comparisons such as `fwu->bl_version >= BL_V7`. -/
def BlVersion.code : BlVersion → Nat
  | .v5 => 5
  | .v6 => 6
  | .v7 => 7
  | .v8 => 8

/-- Enum `flash_area` from the source (`NONE = 0, UI_FIRMWARE, UI_CONFIG`). -/
inductive FlashArea where
  | NONE
  | UI_FIRMWARE
  | UI_CONFIG
deriving DecidableEq, Repr

/-- Constant `V5V6_CONFIG_ID_SIZE` from the source. -/
def V5V6_CONFIG_ID_SIZE : Nat := 4

/-- Constant `V7_CONFIG_ID_SIZE` from the source. -/
def V7_CONFIG_ID_SIZE : Nat := 32

/-- Config-id size selection appearing in `fwu_go_nogo` and
`fwu_get_device_config_id`: `bl_version >= BL_V7` selects the 32-byte id,
otherwise the 4-byte id. -/
def configIdSize (v : BlVersion) : Nat :=
  if 7 ≤ v.code then V7_CONFIG_ID_SIZE else V5V6_CONFIG_ID_SIZE

/-- Embedding of `fwu_get_device_firmware_id`: the device id word is built
byte-wise on a little-endian host as `buf[0] = 0`, `buf[1..3] = build_id[0..2]`,
so the resulting `unsigned int` is `build_id[0]·2^8 + build_id[1]·2^16 +
build_id[2]·2^24`. -/
def fwu_get_device_firmware_id (b0 b1 b2 : Nat) : Nat :=
  b0 % 256 * 2 ^ 8 + b1 % 256 * 2 ^ 16 + b2 % 256 * 2 ^ 24

/-- State consumed by `fwu_go_nogo`: the relevant fields of the global
`fwu` handle together with the values the two register reads in its body
would return.  `config_read_ok` records whether the
`fwu_get_device_config_id` register read succeeds, and `config_id` the bytes
it deposits; `img_ui_config` is the image's UI-config block. -/
structure GoNogoState where
  force_update : Bool
  in_bl_mode : Bool
  build_id0 : Nat
  build_id1 : Nat
  build_id2 : Nat
  contains_firmware_id : Bool
  firmware_id : Nat
  config_read_ok : Bool
  config_id : List Nat
  img_ui_config : List Nat
  bl_version : BlVersion

/-- Embedding of `fwu_get_image_firmware_id`: yields the image's build id
when the decoded image carries one, and fails with `-EINVAL` (modelled as
`none`) otherwise. -/
def fwu_get_image_firmware_id (s : GoNogoState) : Option Nat :=
  if s.contains_firmware_id then some s.firmware_id else none

/-- Loop body of the config-id comparison at the end of `fwu_go_nogo`: the C
loop `for (ii = 0; ii < config_id_size; ii++)` compares
`img.ui_config.data[ii]` against `config_id[ii]`, returning `UI_CONFIG` on the
first strictly-greater image byte, `NONE` on the first strictly-smaller one,
and `NONE` after the loop exhausts all `config_id_size` bytes.  Here `ii` is
the current index and `remaining` the number of indices left to visit, so the
call for the whole loop is at `ii = 0`, `remaining = config_id_size`. -/
def configCompareFrom (img dev : List Nat) (ii : Nat) : Nat → FlashArea
  | 0 => FlashArea.NONE
  | remaining + 1 =>
    if dev.getD ii 0 < img.getD ii 0 then FlashArea.UI_CONFIG
    else if img.getD ii 0 < dev.getD ii 0 then FlashArea.NONE
    else configCompareFrom img dev (ii + 1) remaining

/-- Embedding of `fwu_go_nogo`: forced updates and bootloader-mode devices
flash full firmware; otherwise the device and image build ids are compared,
and on equality the config-id bytes are compared lexicographically. -/
def fwu_go_nogo (s : GoNogoState) : FlashArea :=
  if s.force_update then FlashArea.UI_FIRMWARE
  else if s.in_bl_mode then FlashArea.UI_FIRMWARE
  else
    let device_fw_id := fwu_get_device_firmware_id s.build_id0 s.build_id1 s.build_id2
    match fwu_get_image_firmware_id s with
    | none => FlashArea.NONE
    | some image_fw_id =>
      if image_fw_id ≠ device_fw_id then FlashArea.UI_FIRMWARE
      else if ¬ s.config_read_ok then FlashArea.NONE
      else configCompareFrom s.img_ui_config s.config_id 0 (configIdSize s.bl_version)

/-- Specification-side predicate: the image config-id bytes are
lexicographically strictly greater than the device config-id bytes over the
first `size` positions. -/
def lexStrictlyGreater (img dev : List Nat) (size : Nat) : Prop :=
  ∃ k, k < size ∧ (∀ j, j < k → img.getD j 0 = dev.getD j 0) ∧
    dev.getD k 0 < img.getD k 0

/-- Concrete go/no-go state for the decision-table scenarios of the spec:
bootloader version 6 (4-byte config id), device build id `0x1000`
(build-id bytes `16, 0, 0`), device config-id `[1,2,3,4]`. -/
def tableState (imgId : Nat) (imgCfg : List Nat) : GoNogoState :=
  { force_update := false
    in_bl_mode := false
    build_id0 := 16
    build_id1 := 0
    build_id2 := 0
    contains_firmware_id := true
    firmware_id := imgId
    config_read_ok := true
    config_id := [1, 2, 3, 4]
    img_ui_config := imgCfg
    bl_version := BlVersion.v6 }

/-- Embedding of `fwu_check_ui_firmware_size`: `block_count` is an
`unsigned short` computed as `img.ui_firmware.size / fwu->block_size`
(truncating division, truncated to 16 bits), and the check fails with
`-EINVAL` iff it differs from the device-reported `blkcount.ui_firmware`. -/
def fwu_check_ui_firmware_size (ui_firmware_size block_size blkcount : Nat) : Int :=
  if ui_firmware_size / block_size % 65536 = blkcount then 0 else -EINVAL

/-- Enum `flash_command` from the source: the logical command set handed to
`fwu_write_f34_command`, encoded per protocol version further down the
driver. -/
inductive FlashCommand where
  | CMD_IDLE
  | CMD_WRITE_FW
  | CMD_WRITE_CONFIG
  | CMD_WRITE_LOCKDOWN
  | CMD_WRITE_GUEST_CODE
  | CMD_READ_CONFIG
  | CMD_ERASE_ALL
  | CMD_ERASE_UI_FIRMWARE
  | CMD_ERASE_UI_CONFIG
  | CMD_ERASE_BL_CONFIG
  | CMD_ERASE_DISP_CONFIG
  | CMD_ERASE_FLASH_CONFIG
  | CMD_ERASE_GUEST_CODE
  | CMD_ENABLE_FLASH_PROG
deriving DecidableEq, Repr

/-- State consumed by `fwu_erase_all`: the protocol version and the flags
controlling the conditional display-config and guest-code erases. -/
structure EraseState where
  bl_version : BlVersion
  has_disp_config : Bool
  new_partition_table : Bool
  has_guest_code : Bool

/-- Embedding of `fwu_erase_all` as the trace of flash commands it hands to
`fwu_write_f34_command` on its success path (every register write and idle
wait succeeding; for `BL_V8` the tolerated `BAD_PARTITION_TABLE` status also
counts as success).  `BL_V7` erases the firmware area and then, through
`fwu_erase_configuration` with `config_area = UI_CONFIG_AREA`, the UI-config
area; every other version issues the single combined `CMD_ERASE_ALL`, and
`BL_V8` returns immediately after it.  The display-config erase is issued
when the device has a display config, and the guest-code erase when a new
partition table was detected and the device has guest code. -/
def fwu_erase_all_cmds (s : EraseState) : List FlashCommand :=
  let tail :=
    (if s.has_disp_config then [FlashCommand.CMD_ERASE_DISP_CONFIG] else [])
    ++ (if s.new_partition_table && s.has_guest_code then
          [FlashCommand.CMD_ERASE_GUEST_CODE] else [])
  if s.bl_version = BlVersion.v7 then
    FlashCommand.CMD_ERASE_UI_FIRMWARE :: FlashCommand.CMD_ERASE_UI_CONFIG :: tail
  else if s.bl_version = BlVersion.v8 then
    [FlashCommand.CMD_ERASE_ALL]
  else
    FlashCommand.CMD_ERASE_ALL :: tail

/-- Struct `physical_address` from the source: per-area physical addresses
discovered from a partition table (`unsigned short` fields). -/
structure PhysicalAddress where
  ui_firmware : Nat
  ui_config : Nat
  dp_config : Nat
  guest_code : Nat
deriving DecidableEq, Repr

/-- Struct `block_count` from the source: per-area block counts
(`unsigned short` fields). -/
structure BlockCount where
  ui_firmware : Nat
  ui_config : Nat
  dp_config : Nat
  fl_config : Nat
  pm_config : Nat
  bl_config : Nat
  lockdown : Nat
  guest_code : Nat
deriving DecidableEq, Repr

/-- State consumed by `fwu_compare_partition_tables`: the device's discovered
addresses and counts (`fwu->phyaddr`, `fwu->blkcount`), the image's declared
ones (`fwu->img.phyaddr`, `fwu->img.blkcount`), and the presence flags
guarding the conditional comparisons. -/
structure PartitionCmpState where
  dev_phyaddr : PhysicalAddress
  img_phyaddr : PhysicalAddress
  dev_blkcount : BlockCount
  img_blkcount : BlockCount
  has_disp_config : Bool
  has_guest_code : Bool

/-- Embedding of `fwu_compare_partition_tables`: compares the physical
addresses of the UI-firmware and UI-config areas, the display-config area
when the device has one (the source performs this comparison twice), and the
guest-code area when the device has guest code; the block counts held next to
the addresses are never consulted.  Returns the value assigned to
`fwu->new_partition_table`. -/
def fwu_compare_partition_tables (s : PartitionCmpState) : Bool :=
  if s.dev_phyaddr.ui_firmware ≠ s.img_phyaddr.ui_firmware then true
  else if s.dev_phyaddr.ui_config ≠ s.img_phyaddr.ui_config then true
  else if s.has_disp_config = true ∧ s.dev_phyaddr.dp_config ≠ s.img_phyaddr.dp_config then
    true
  else if s.has_disp_config = true ∧ s.dev_phyaddr.dp_config ≠ s.img_phyaddr.dp_config then
    true
  else if s.has_guest_code = true ∧ s.dev_phyaddr.guest_code ≠ s.img_phyaddr.guest_code then
    true
  else false

/-- Record length field of a TDAT record starting at `offset`: bytes
`offset+1 .. offset+3` read little-endian, as in
`(data[offset+3] << 16) | (data[offset+2] << 8) | data[offset+1]` inside
`fwu_parse_tdat_image`.  Out-of-range reads yield 0; as in the source, such a
record always fails the overflow check regardless of the bytes read, so this
convention does not change the accept/reject outcome. -/
def tdatLen (data : List Nat) (offset : Nat) : Nat :=
  data.getD (offset + 3) 0 * 65536 + data.getD (offset + 2) 0 * 256 +
    data.getD (offset + 1) 0

/-- First validation pass of `fwu_parse_tdat_image`: starting at `offset`
(the loop starts at 1, behind the 1-byte format discriminant), each record
advances by `length + 4`; a record reaching past `fw_size` fails, and after
the loop the cursor must sit exactly on `fw_size`. -/
def tdatPass1From (data : List Nat) (fw_size offset : Nat) : Bool :=
  if h1 : offset < fw_size then
    if h2 : fw_size < offset + tdatLen data offset + 4 then false
    else tdatPass1From data fw_size (offset + tdatLen data offset + 4)
  else offset == fw_size
termination_by fw_size - offset
decreasing_by omega

/-- First validation pass of `fwu_parse_tdat_image` over a whole image
buffer: `fwu->image_size` is the buffer length and the record walk starts at
offset 1. -/
def fwu_parse_tdat_pass1 (data : List Nat) : Bool :=
  tdatPass1From data data.length 1

/-- Specification-side tiling predicate: `ls` is the list of declared record
lengths of a record stream that starts at `offset` and exactly tiles the
buffer, each record occupying `length + 4` bytes and carrying the length
declared in its own header. -/
def tdatTilesFrom (data : List Nat) : Nat → List Nat → Prop
  | offset, [] => offset = data.length
  | offset, l :: ls =>
    offset < data.length ∧ l = tdatLen data offset ∧
      offset + l + 4 ≤ data.length ∧ tdatTilesFrom data (offset + l + 4) ls

/-- Function number `SYNAPTICS_RMI4_F01` (core control) from the driver
header `synaptics_dsx_i2c.h`, which is not under `src/`; the value is the
standard RMI4 function number, and no theorem below depends on the three
function numbers beyond their being distinct. -/
def SYNAPTICS_RMI4_F01 : Nat := 0x01

/-- Function number `SYNAPTICS_RMI4_F34` (flash/bootloader engine) from the
driver header, as for `SYNAPTICS_RMI4_F01`. -/
def SYNAPTICS_RMI4_F34 : Nat := 0x34

/-- Function number `SYNAPTICS_RMI4_F35` (recovery/microloader engine) from
the driver header, as for `SYNAPTICS_RMI4_F01`. -/
def SYNAPTICS_RMI4_F35 : Nat := 0x35

/-- Descriptor-table entry as read by `fwu_scan_pdt`: the fields of
`struct synaptics_rmi4_fn_desc` the scan consults. -/
structure PdtEntry where
  fn_number : Nat
  fn_version : Nat
  intr_src_count : Nat
deriving DecidableEq, Repr

/-- Result of `fwu_scan_pdt`: success carries the final `fwu->in_ub_mode`
flag, failure is the `-EINVAL` return. -/
inductive ScanResult where
  | ok (in_ub_mode : Bool)
  | err
deriving DecidableEq, Repr

/-- Epilogue of `fwu_scan_pdt`: if F01 or F34 is missing, a missing F35 is an
error, while a present F35 records microbootloader mode; otherwise the scan
succeeds with `in_ub_mode = false` (it is cleared at the top of the scan). -/
def scanFinish (f01found f34found f35found : Bool) : ScanResult :=
  if ¬ f01found ∨ ¬ f34found then
    if ¬ f35found then ScanResult.err else ScanResult.ok true
  else ScanResult.ok false

/-- Scan loop of `fwu_scan_pdt` over the descriptor entries the address walk
returns, in order: a zero function number terminates the walk; F01, F34 and
F35 set their found flags, F34 additionally failing with `-EINVAL` on an
unrecognized `fn_version` (only versions 0, 1, 2 are known); other function
numbers are skipped. -/
def scanLoop : List PdtEntry → Bool → Bool → Bool → ScanResult
  | [], f01found, f34found, f35found => scanFinish f01found f34found f35found
  | e :: rest, f01found, f34found, f35found =>
    if e.fn_number = 0 then scanFinish f01found f34found f35found
    else if e.fn_number = SYNAPTICS_RMI4_F01 then scanLoop rest true f34found f35found
    else if e.fn_number = SYNAPTICS_RMI4_F34 then
      if e.fn_version = 0 ∨ e.fn_version = 1 ∨ e.fn_version = 2 then
        scanLoop rest f01found true f35found
      else ScanResult.err
    else if e.fn_number = SYNAPTICS_RMI4_F35 then scanLoop rest f01found f34found true
    else scanLoop rest f01found f34found f35found

/-- Embedding of `fwu_scan_pdt` over the list of descriptor entries the
fixed address range would yield (the list is the sequence of successful
register reads from `PDT_START` downward, at most one per probed address). -/
def fwu_scan_pdt (entries : List PdtEntry) : ScanResult :=
  scanLoop entries false false false

/-- Entries of the descriptor walk that are actually examined before a zero
function number terminates it. -/
def activeEntries (entries : List PdtEntry) : List PdtEntry :=
  entries.takeWhile (fun e => e.fn_number ≠ 0)

/-- Constant `F35_CHUNK_SIZE` from the source. -/
def F35_CHUNK_SIZE : Nat := 16

/-- Constant `CMD_F35_WRITE_CHUNK` from the source. -/
def CMD_F35_WRITE_CHUNK : Nat := 0x2

/-- Chunk count computed in `fwu_recovery_write_chunk`: `chunk_total` is an
`unsigned short`, assigned `image_size / F35_CHUNK_SIZE` and incremented when
`image_size % F35_CHUNK_SIZE` is nonzero, both truncated to 16 bits. -/
def recoveryChunkTotal (n : Nat) : Nat :=
  (n / F35_CHUNK_SIZE % 65536 + (if n % F35_CHUNK_SIZE ≠ 0 then 1 else 0)) % 65536

/-- Size of chunk number `chunk` in `fwu_recovery_write_chunk`: the spare
byte count for the final chunk when the image is not a multiple of 16 bytes,
and 16 otherwise. -/
def recoveryChunkSize (n chunk : Nat) : Nat :=
  if n % F35_CHUNK_SIZE ≠ 0 ∧ chunk = recoveryChunkTotal n - 1 then
    n % F35_CHUNK_SIZE
  else F35_CHUNK_SIZE

/-- Data bytes of chunk number `chunk`: the 16-byte buffer is zeroed, the
chunk's bytes are copied in from the image (the read cursor having advanced
by 16 bytes per preceding chunk), and the write-chunk command byte sits at
buffer offset 16. -/
def recoveryChunkPayload (image : List Nat) (chunk : Nat) : List Nat :=
  let csize := recoveryChunkSize image.length chunk
  (image.drop (F35_CHUNK_SIZE * chunk)).take csize
    ++ List.replicate (F35_CHUNK_SIZE - csize) 0

/-- Embedding of `fwu_recovery_write_chunk` as the trace of register writes
it performs after the initial chunk-number write, on its success path: one
write per chunk, each of the 17-byte buffer holding the zero-padded chunk
data followed by `CMD_F35_WRITE_CHUNK`. -/
def fwu_recovery_write_chunk_trace (image : List Nat) : List (List Nat) :=
  (List.range (recoveryChunkTotal image.length)).map
    (fun chunk => recoveryChunkPayload image chunk ++ [CMD_F35_WRITE_CHUNK])

/-- Constant `CMD_IDLE` of enum `flash_command`, as the numeric value stored
in `fwu->command` by `fwu_read_flash_status`. -/
def CMD_IDLE_CODE : Nat := 0

/-- Environment of one `fwu_wait_for_idle` call: whether `down_timeout` on
the interrupt semaphore expired, the result of the `fwu_read_interrupt_status`
register read (the status byte on success, a negative errno on failure), and
the `fwu->command` / `fwu->flash_status` values the `fwu_read_flash_status`
re-read deposits. -/
structure WaitEnv where
  timed_out : Bool
  intr_read_ok : Bool
  intr_status : Nat
  intr_read_err : Int
  command : Nat
  flash_status : Nat

/-- Embedding of `fwu_wait_for_idle`: `retval` is set to `-ETIMEDOUT` when the
semaphore wait expires, then unconditionally overwritten with the return
value of `fwu_read_interrupt_status` (the dead first assignment is kept to
mirror the source); the flash status is re-read, and the function returns 0
when the command register is idle and the flash status is zero, and the
overwritten `retval` otherwise. -/
def fwu_wait_for_idle (e : WaitEnv) : Int :=
  let _retval : Int := if e.timed_out then -ETIMEDOUT else 0
  let retval : Int := if e.intr_read_ok then (e.intr_status % 256 : Nat) else e.intr_read_err
  if e.command = CMD_IDLE_CODE ∧ e.flash_status = 0 then 0 else retval

/-- State consumed by the exported entry point `synaptics_fw_updater`: the
global handle's presence and the guard flags, plus the stored image pointer
it would set. -/
structure UpdaterState where
  handle_present : Bool
  initialized : Bool
  in_ub_mode : Bool
  image : Option (List Nat)

/-- Embedding of `synaptics_fw_updater`: the three guards return `-ENODEV`
before anything else runs; otherwise the image pointer is stored,
`fwu_start_reflash` runs, and the image pointer is cleared.  The reflash body
is abstracted as the parameter `start_reflash`, returning its status, its
final state and the trace of operations (of an arbitrary type `α`) it
performed; the guards return before invoking it, so every theorem about the
early-rejection path holds for all `start_reflash`. -/
def synaptics_fw_updater {α : Type} (start_reflash : UpdaterState → Int × UpdaterState × List α)
    (s : UpdaterState) (fw_data : List Nat) : Int × UpdaterState × List α :=
  if s.handle_present = false then (-ENODEV, s, [])
  else if s.initialized = false then (-ENODEV, s, [])
  else if s.in_ub_mode = true then (-ENODEV, s, [])
  else
    let r := start_reflash { s with image := some fw_data }
    (r.1, { r.2.1 with image := none }, r.2.2)

theorem configCompareFrom_ne_firmware (img dev : List Nat) :
    ∀ remaining ii, configCompareFrom img dev ii remaining ≠ FlashArea.UI_FIRMWARE := by
  intro remaining
  induction remaining with
  | zero => intro ii; simp [configCompareFrom]
  | succ n ih =>
    intro ii
    simp only [configCompareFrom]
    split
    · simp
    · split
      · simp
      · exact ih (ii + 1)

theorem configCompareFrom_eq_uiconfig_iff (img dev : List Nat) :
    ∀ remaining ii, configCompareFrom img dev ii remaining = FlashArea.UI_CONFIG ↔
      ∃ k, k < remaining ∧ (∀ j, j < k → img.getD (ii + j) 0 = dev.getD (ii + j) 0) ∧
        dev.getD (ii + k) 0 < img.getD (ii + k) 0 := by
  intro remaining
  induction remaining with
  | zero => intro ii; simp [configCompareFrom]
  | succ n ih =>
    intro ii
    show (if dev.getD ii 0 < img.getD ii 0 then FlashArea.UI_CONFIG
      else if img.getD ii 0 < dev.getD ii 0 then FlashArea.NONE
      else configCompareFrom img dev (ii + 1) n) = FlashArea.UI_CONFIG ↔ _
    by_cases hgt : dev.getD ii 0 < img.getD ii 0
    · rw [if_pos hgt]
      constructor
      · intro _
        exact ⟨0, Nat.succ_pos n, fun j hj => absurd hj (Nat.not_lt_zero j),
          by rw [Nat.add_zero]; exact hgt⟩
      · intro _; rfl
    · rw [if_neg hgt]
      by_cases hlt : img.getD ii 0 < dev.getD ii 0
      · rw [if_pos hlt]
        constructor
        · intro h; exact FlashArea.noConfusion h
        · rintro ⟨k, _, hpre, hk⟩
          exfalso
          rcases Nat.eq_zero_or_pos k with rfl | hkpos
          · rw [Nat.add_zero] at hk; omega
          · have := hpre 0 hkpos
            rw [Nat.add_zero] at this; omega
      · rw [if_neg hlt]
        have heq : img.getD ii 0 = dev.getD ii 0 := by omega
        rw [ih (ii + 1)]
        constructor
        · rintro ⟨k, hk, hpre, hcmp⟩
          refine ⟨k + 1, by omega, ?_, ?_⟩
          · intro j hj
            rcases Nat.eq_zero_or_pos j with rfl | hjpos
            · rw [Nat.add_zero]; exact heq
            · have := hpre (j - 1) (by omega)
              have hrw : ii + 1 + (j - 1) = ii + j := by omega
              rwa [hrw] at this
          · have hrw : ii + 1 + k = ii + (k + 1) := by omega
            rwa [hrw] at hcmp
        · rintro ⟨k, hk, hpre, hcmp⟩
          rcases Nat.eq_zero_or_pos k with rfl | hkpos
          · exfalso; rw [Nat.add_zero] at hcmp; omega
          · refine ⟨k - 1, by omega, ?_, ?_⟩
            · intro j hj
              have := hpre (j + 1) (by omega)
              have hrw : ii + (j + 1) = ii + 1 + j := by omega
              rwa [hrw] at this
            · have hrw : ii + k = ii + 1 + (k - 1) := by omega
              rwa [hrw] at hcmp

/-- Config-id comparison with both outcomes characterized at the start of
the loop. -/
theorem configCompare_characterization (img dev : List Nat) (size : Nat) :
    (configCompareFrom img dev 0 size = FlashArea.UI_CONFIG ↔
      lexStrictlyGreater img dev size)
    ∧ (configCompareFrom img dev 0 size = FlashArea.NONE ↔
      ¬ lexStrictlyGreater img dev size) := by
  have hiff := configCompareFrom_eq_uiconfig_iff img dev size 0
  simp only [Nat.zero_add] at hiff
  have hne := configCompareFrom_ne_firmware img dev size 0
  constructor
  · exact hiff
  · constructor
    · intro hnone hlex
      have hcfg := hiff.mpr hlex
      rw [hnone] at hcfg
      exact FlashArea.noConfusion hcfg
    · intro hnot
      cases hres : configCompareFrom img dev 0 size with
      | NONE => rfl
      | UI_FIRMWARE => exact absurd hres hne
      | UI_CONFIG => exact absurd (hiff.mp hres) hnot

/-- C1: with force off and the device not in bootloader mode, a build-id
mismatch decides a full firmware+config update; on build-id equality the
image config-id bytes are compared lexicographically over the fixed config-id
length, strictly greater deciding a config-only update and equal-or-lesser
deciding no update.  The decision table instances: device build id `0x1000`
and config-id `[1,2,3,4]` against image build id `0x1000` give config-only
for image config-id `[1,2,3,5]` and no update for `[1,2,3,3]`, while image
build id `0x1001` gives a full update. -/
theorem go_nogo_decision (s : GoNogoState)
    (hforce : s.force_update = false) (hbl : s.in_bl_mode = false)
    (himg : s.contains_firmware_id = true) (hcfg : s.config_read_ok = true) :
    ((s.firmware_id ≠ fwu_get_device_firmware_id s.build_id0 s.build_id1 s.build_id2 →
        fwu_go_nogo s = FlashArea.UI_FIRMWARE)
      ∧ (s.firmware_id = fwu_get_device_firmware_id s.build_id0 s.build_id1 s.build_id2 →
          (fwu_go_nogo s = FlashArea.UI_CONFIG ↔
            lexStrictlyGreater s.img_ui_config s.config_id (configIdSize s.bl_version))
          ∧ (fwu_go_nogo s = FlashArea.NONE ↔
            ¬ lexStrictlyGreater s.img_ui_config s.config_id (configIdSize s.bl_version))))
    ∧ fwu_go_nogo (tableState 0x1000 [1, 2, 3, 5]) = FlashArea.UI_CONFIG
    ∧ fwu_go_nogo (tableState 0x1000 [1, 2, 3, 3]) = FlashArea.NONE
    ∧ fwu_go_nogo (tableState 0x1001 [1, 2, 3, 5]) = FlashArea.UI_FIRMWARE := by
  refine ⟨⟨?_, ?_⟩, by decide, by decide, by decide⟩
  · intro hne
    simp [fwu_go_nogo, fwu_get_image_firmware_id, hforce, hbl, himg, hne]
  · intro heq
    have hres : fwu_go_nogo s =
        configCompareFrom s.img_ui_config s.config_id 0 (configIdSize s.bl_version) := by
      simp [fwu_go_nogo, fwu_get_image_firmware_id, hforce, hbl, himg, heq, hcfg]
    rw [hres]
    exact configCompare_characterization s.img_ui_config s.config_id
      (configIdSize s.bl_version)

/-- Witness for C1 at the config-only scenario of the decision table. -/
theorem go_nogo_decision_witness :
    fwu_go_nogo (tableState 0x1000 [1, 2, 3, 5]) = FlashArea.UI_CONFIG :=
  (go_nogo_decision (tableState 0x1000 [1, 2, 3, 5]) rfl rfl rfl rfl).2.1

/-- C9: when the update is not forced, the device is not in bootloader mode,
and the decoded image carries no build identifier, `fwu_go_nogo` decides
`NONE` (no flashing), rather than treating the missing id as a mismatch. -/
theorem go_nogo_missing_image_id (s : GoNogoState)
    (hforce : s.force_update = false) (hbl : s.in_bl_mode = false)
    (hid : s.contains_firmware_id = false) :
    fwu_go_nogo s = FlashArea.NONE := by
  simp [fwu_go_nogo, fwu_get_image_firmware_id, hforce, hbl, hid]

/-- Witness for C9: a concrete image without a build id decides no update. -/
theorem go_nogo_missing_image_id_witness :
    fwu_go_nogo { tableState 0x1000 [9, 9, 9, 9] with contains_firmware_id := false } =
      FlashArea.NONE :=
  go_nogo_missing_image_id _ rfl rfl rfl

/-- C2 counterexample: against a device reporting 100 blocks of size 16, a
1601-byte UI firmware block PASSES the size check (the truncating division
`1601 / 16 = 100` matches the reported count), where the claim says it must
fail with a size-mismatch error. -/
theorem check_ui_firmware_size_1601_passes :
    fwu_check_ui_firmware_size 1601 16 100 = 0 := by decide

/-- C2 amended: the check passes exactly when the truncated block division of
the image size equals the device-reported count — for block size 16 and
100 reported blocks every size in `[1600, 1615]` passes, so 1600 and 1601
pass while 1584 fails with `-EINVAL`; trailing non-block-aligned bytes are
ignored by the check rather than rejected. -/
theorem check_ui_firmware_size_amended (sz bs cnt : Nat)
    (hbs : 0 < bs) (hq : sz / bs < 65536) :
    (fwu_check_ui_firmware_size sz bs cnt = 0 ↔ bs * cnt ≤ sz ∧ sz < bs * (cnt + 1))
    ∧ (fwu_check_ui_firmware_size sz bs cnt = 0 ∨
        fwu_check_ui_firmware_size sz bs cnt = -EINVAL)
    ∧ fwu_check_ui_firmware_size 1600 16 100 = 0
    ∧ fwu_check_ui_firmware_size 1601 16 100 = 0
    ∧ fwu_check_ui_firmware_size 1584 16 100 = -EINVAL := by
  refine ⟨?_, ?_, by decide, by decide, by decide⟩
  · have hmod : sz / bs % 65536 = sz / bs := Nat.mod_eq_of_lt hq
    have hdiv : sz / bs = cnt ↔ bs * cnt ≤ sz ∧ sz < bs * (cnt + 1) := by
      constructor
      · intro h
        subst h
        exact ⟨Nat.mul_div_le sz bs, Nat.lt_mul_div_succ sz hbs⟩
      · intro ⟨hlo, hhi⟩
        exact Nat.div_eq_of_lt_le (by rwa [Nat.mul_comm] at hlo)
          (by rwa [Nat.mul_comm] at hhi)
    unfold fwu_check_ui_firmware_size
    rw [hmod]
    constructor
    · intro h
      rw [← hdiv]
      by_contra hne
      rw [if_neg hne] at h
      simp [EINVAL] at h
    · intro h
      rw [if_pos (hdiv.mpr h)]
  · unfold fwu_check_ui_firmware_size
    split
    · left; rfl
    · right; rfl

/-- Witness for C2's amended theorem at the 1600-byte aligned image. -/
theorem check_ui_firmware_size_amended_witness :
    fwu_check_ui_firmware_size 1600 16 100 = 0 :=
  ((check_ui_firmware_size_amended 1600 16 100 (by decide) (by decide)).1).mpr
    (by decide)

/-- C3 counterexample: on a Current8 (`BL_V8`) device — even with display
config present, a new partition table and guest code — `fwu_erase_all` issues
the single combined `CMD_ERASE_ALL` and returns, never the two distinct
firmware-area and UI-config-area erases the claim states for Current8. -/
theorem erase_all_v8_combined :
    fwu_erase_all_cmds ⟨BlVersion.v8, true, true, true⟩ = [FlashCommand.CMD_ERASE_ALL]
    ∧ FlashCommand.CMD_ERASE_UI_FIRMWARE ∉ fwu_erase_all_cmds ⟨BlVersion.v8, true, true, true⟩
    ∧ FlashCommand.CMD_ERASE_UI_CONFIG ∉ fwu_erase_all_cmds ⟨BlVersion.v8, true, true, true⟩ := by
  decide

/-- C3 amended: only Current7 (`BL_V7`) erases the firmware area and the
UI-config area as two distinct area-erase commands; Legacy5/6 AND Current8
issue the one combined erase-all command, Current8 additionally returning
right after it (skipping the conditional display-config/guest-code erases). -/
theorem erase_all_dispatch (s : EraseState) :
    (s.bl_version = BlVersion.v7 →
      (fwu_erase_all_cmds s).take 2 =
        [FlashCommand.CMD_ERASE_UI_FIRMWARE, FlashCommand.CMD_ERASE_UI_CONFIG]
      ∧ FlashCommand.CMD_ERASE_ALL ∉ fwu_erase_all_cmds s)
    ∧ (s.bl_version ≠ BlVersion.v7 →
      (fwu_erase_all_cmds s).head? = some FlashCommand.CMD_ERASE_ALL
      ∧ FlashCommand.CMD_ERASE_UI_FIRMWARE ∉ fwu_erase_all_cmds s
      ∧ FlashCommand.CMD_ERASE_UI_CONFIG ∉ fwu_erase_all_cmds s)
    ∧ (s.bl_version = BlVersion.v8 →
      fwu_erase_all_cmds s = [FlashCommand.CMD_ERASE_ALL]) := by
  obtain ⟨v, d, p, g⟩ := s
  cases v <;> cases d <;> cases p <;> cases g <;> decide

/-- Witness for C3's amended theorem on a Current7 device. -/
theorem erase_all_dispatch_witness :
    (fwu_erase_all_cmds ⟨BlVersion.v7, false, false, false⟩).take 2 =
      [FlashCommand.CMD_ERASE_UI_FIRMWARE, FlashCommand.CMD_ERASE_UI_CONFIG] :=
  ((erase_all_dispatch ⟨BlVersion.v7, false, false, false⟩).1 rfl).1

theorem compare_partition_tables_eq_true_iff (s : PartitionCmpState) :
    fwu_compare_partition_tables s = true ↔
      (s.dev_phyaddr.ui_firmware ≠ s.img_phyaddr.ui_firmware
      ∨ s.dev_phyaddr.ui_config ≠ s.img_phyaddr.ui_config
      ∨ (s.has_disp_config = true ∧ s.dev_phyaddr.dp_config ≠ s.img_phyaddr.dp_config)
      ∨ (s.has_guest_code = true ∧ s.dev_phyaddr.guest_code ≠ s.img_phyaddr.guest_code)) := by
  unfold fwu_compare_partition_tables
  split_ifs with h1 h2 h3 h4 <;> simp_all

/-- C4: if the physical addresses of all present areas agree between the
device's discovered partition table and the image's declared one (and the
block counts agree as well), `new_partition_table` is set to false; if any
single present area's physical address differs — UI firmware or UI config
always, display config when the device has one, guest code when the device
has it — the flag is set to true. -/
theorem compare_partition_tables_spec (s : PartitionCmpState) :
    ((s.dev_phyaddr.ui_firmware = s.img_phyaddr.ui_firmware ∧
      s.dev_phyaddr.ui_config = s.img_phyaddr.ui_config ∧
      (s.has_disp_config = true → s.dev_phyaddr.dp_config = s.img_phyaddr.dp_config) ∧
      (s.has_guest_code = true → s.dev_phyaddr.guest_code = s.img_phyaddr.guest_code) ∧
      s.dev_blkcount = s.img_blkcount) →
      fwu_compare_partition_tables s = false)
    ∧ (s.dev_phyaddr.ui_firmware ≠ s.img_phyaddr.ui_firmware →
        fwu_compare_partition_tables s = true)
    ∧ (s.dev_phyaddr.ui_config ≠ s.img_phyaddr.ui_config →
        fwu_compare_partition_tables s = true)
    ∧ (s.has_disp_config = true → s.dev_phyaddr.dp_config ≠ s.img_phyaddr.dp_config →
        fwu_compare_partition_tables s = true)
    ∧ (s.has_guest_code = true → s.dev_phyaddr.guest_code ≠ s.img_phyaddr.guest_code →
        fwu_compare_partition_tables s = true) := by
  have hiff := compare_partition_tables_eq_true_iff s
  refine ⟨?_, ?_, ?_, ?_, ?_⟩
  · rintro ⟨h1, h2, h3, h4, _⟩
    cases hres : fwu_compare_partition_tables s with
    | false => rfl
    | true =>
      rcases hiff.mp hres with h | h | ⟨hd, h⟩ | ⟨hg, h⟩
      · exact absurd h1 h
      · exact absurd h2 h
      · exact absurd (h3 hd) h
      · exact absurd (h4 hg) h
  · intro h; exact hiff.mpr (Or.inl h)
  · intro h; exact hiff.mpr (Or.inr (Or.inl h))
  · intro hd h; exact hiff.mpr (Or.inr (Or.inr (Or.inl ⟨hd, h⟩)))
  · intro hg h; exact hiff.mpr (Or.inr (Or.inr (Or.inr ⟨hg, h⟩)))

/-- Witness for C4: a differing UI-firmware physical address flips the flag
to true. -/
theorem compare_partition_tables_spec_witness :
    fwu_compare_partition_tables
      { dev_phyaddr := ⟨1, 2, 3, 4⟩, img_phyaddr := ⟨9, 2, 3, 4⟩,
        dev_blkcount := ⟨1, 1, 1, 1, 1, 1, 1, 1⟩, img_blkcount := ⟨1, 1, 1, 1, 1, 1, 1, 1⟩,
        has_disp_config := true, has_guest_code := true } = true :=
  (compare_partition_tables_spec _).2.1 (by decide)

theorem tdatTilesFrom_sum (data : List Nat) :
    ∀ ls offset, tdatTilesFrom data offset ls →
      offset + (ls.map (fun l => l + 4)).sum = data.length := by
  intro ls
  induction ls with
  | nil =>
    intro offset h
    simpa [tdatTilesFrom] using h
  | cons l ls ih =>
    intro offset h
    obtain ⟨_, _, _, htail⟩ := h
    have hrest := ih (offset + l + 4) htail
    simp only [List.map_cons, List.sum_cons]
    omega

theorem tdatPass1From_terminal (data : List Nat) (offset : Nat)
    (hge : data.length ≤ offset) :
    (tdatPass1From data data.length offset = true ↔
      ∃ ls, tdatTilesFrom data offset ls) := by
  rw [tdatPass1From]
  rw [dif_neg (by omega)]
  rw [beq_iff_eq]
  constructor
  · intro h; exact ⟨[], h⟩
  · rintro ⟨ls, h⟩
    cases ls with
    | nil => exact h
    | cons l ls => exact absurd h.1 (by omega)

theorem tdatPass1From_iff_tiles (data : List Nat) :
    ∀ fuel offset, data.length - offset ≤ fuel →
      (tdatPass1From data data.length offset = true ↔
        ∃ ls, tdatTilesFrom data offset ls) := by
  intro fuel
  induction fuel with
  | zero =>
    intro offset hf
    exact tdatPass1From_terminal data offset (by omega)
  | succ fuel ih =>
    intro offset hf
    by_cases hlt : offset < data.length
    · rw [tdatPass1From, dif_pos hlt]
      by_cases hover : data.length < offset + tdatLen data offset + 4
      · rw [dif_pos hover]
        constructor
        · intro h; exact absurd h (by simp)
        · rintro ⟨ls, h⟩
          cases ls with
          | nil => exact absurd h (by show ¬ (offset = data.length); omega)
          | cons l ls =>
            obtain ⟨_, hlen, hbound, _⟩ := h
            exfalso; omega
      · rw [dif_neg hover]
        rw [ih (offset + tdatLen data offset + 4) (by omega)]
        constructor
        · rintro ⟨ls, h⟩
          exact ⟨tdatLen data offset :: ls, hlt, rfl, by omega, h⟩
        · rintro ⟨ls, h⟩
          cases ls with
          | nil => exact absurd h (by show ¬ (offset = data.length); omega)
          | cons l ls =>
            obtain ⟨_, hlen, _, htail⟩ := h
            subst hlen
            exact ⟨ls, htail⟩
    · exact tdatPass1From_terminal data offset (by omega)

/-- C5: the first validation pass over a TDAT buffer accepts exactly when the
`(id, 3-byte little-endian length, payload)` records, laid end to end behind
the 1-byte format discriminant, tile the buffer exactly; for any such tiling
the record sizes `length + 4` sum with the discriminant byte to the buffer
length, and any truncated or overlapping record stream is rejected (the pass
returns the misaligned-data `-EINVAL` before any record extraction runs). -/
theorem tdat_pass1_iff (data : List Nat) :
    (fwu_parse_tdat_pass1 data = true ↔ ∃ ls : List Nat, tdatTilesFrom data 1 ls)
    ∧ (∀ ls : List Nat, tdatTilesFrom data 1 ls →
        1 + (ls.map (fun l => l + 4)).sum = data.length) := by
  constructor
  · exact tdatPass1From_iff_tiles data (data.length - 1) 1 le_rfl
  · intro ls h
    exact tdatTilesFrom_sum data ls 1 h

/-- Witness for C5: a 6-byte TDAT buffer holding one record of declared
length 1 is accepted by the first pass. -/
theorem tdat_pass1_iff_witness :
    fwu_parse_tdat_pass1 [0x31, 5, 1, 0, 0, 9] = true :=
  (tdat_pass1_iff [0x31, 5, 1, 0, 0, 9]).1.mpr
    ⟨[1], by exact ⟨by decide, by decide, by decide, rfl⟩⟩

theorem scanLoop_no_f01_f34 (entries : List PdtEntry) :
    ∀ f01found f34found f35found : Bool,
      (∀ e ∈ activeEntries entries,
          e.fn_number ≠ SYNAPTICS_RMI4_F01 ∧ e.fn_number ≠ SYNAPTICS_RMI4_F34) →
      scanLoop entries f01found f34found f35found =
        scanFinish f01found f34found
          (f35found || (activeEntries entries).any
            (fun e => e.fn_number == SYNAPTICS_RMI4_F35)) := by
  induction entries with
  | nil =>
    intro f01 f34 f35 _
    simp [activeEntries, scanLoop]
  | cons e rest ih =>
    intro f01 f34 f35 h
    by_cases h0 : e.fn_number = 0
    · simp [scanLoop, activeEntries, h0]
    · have hactive : activeEntries (e :: rest) = e :: activeEntries rest := by
        simp [activeEntries, List.takeWhile_cons, h0]
      have he := h e (by rw [hactive]; exact List.mem_cons_self e _)
      have hrest : ∀ x ∈ activeEntries rest,
          x.fn_number ≠ SYNAPTICS_RMI4_F01 ∧ x.fn_number ≠ SYNAPTICS_RMI4_F34 := by
        intro x hx
        exact h x (by rw [hactive]; exact List.mem_cons_of_mem e hx)
      have hunfold : scanLoop (e :: rest) f01 f34 f35 =
          (if e.fn_number = 0 then scanFinish f01 f34 f35
          else if e.fn_number = SYNAPTICS_RMI4_F01 then scanLoop rest true f34 f35
          else if e.fn_number = SYNAPTICS_RMI4_F34 then
            if e.fn_version = 0 ∨ e.fn_version = 1 ∨ e.fn_version = 2 then
              scanLoop rest f01 true f35
            else ScanResult.err
          else if e.fn_number = SYNAPTICS_RMI4_F35 then scanLoop rest f01 f34 true
          else scanLoop rest f01 f34 f35) := rfl
      by_cases h35 : e.fn_number = SYNAPTICS_RMI4_F35
      · rw [hunfold, if_neg h0, if_neg he.1, if_neg he.2, if_pos h35]
        rw [ih f01 f34 true hrest, hactive]
        have hb : (e.fn_number == SYNAPTICS_RMI4_F35) = true := beq_iff_eq.mpr h35
        simp [hb]
      · rw [hunfold, if_neg h0, if_neg he.1, if_neg he.2, if_neg h35]
        rw [ih f01 f34 f35 hrest, hactive]
        have hb : (e.fn_number == SYNAPTICS_RMI4_F35) = false :=
          beq_eq_false_iff_ne.mpr h35
        simp [hb]

/-- C6: if every examined descriptor entry lacks the core-control (F01) and
bootloader-engine (F34) function numbers, then the presence of a
recovery-engine (F35) entry makes the scan succeed recording microloader
mode, while the absence of all three makes it fail. -/
theorem scan_pdt_microloader (entries : List PdtEntry)
    (h : ∀ e ∈ activeEntries entries,
      e.fn_number ≠ SYNAPTICS_RMI4_F01 ∧ e.fn_number ≠ SYNAPTICS_RMI4_F34) :
    ((∃ e ∈ activeEntries entries, e.fn_number = SYNAPTICS_RMI4_F35) →
      fwu_scan_pdt entries = ScanResult.ok true)
    ∧ ((∀ e ∈ activeEntries entries, e.fn_number ≠ SYNAPTICS_RMI4_F35) →
      fwu_scan_pdt entries = ScanResult.err) := by
  have hmain := scanLoop_no_f01_f34 entries false false false h
  unfold fwu_scan_pdt
  rw [hmain]
  constructor
  · rintro ⟨e, hmem, h35⟩
    have hany : (activeEntries entries).any
        (fun e => e.fn_number == SYNAPTICS_RMI4_F35) = true := by
      rw [List.any_eq_true]
      exact ⟨e, hmem, by simp [h35]⟩
    rw [hany]
    simp [scanFinish]
  · intro hnone
    have hany : (activeEntries entries).any
        (fun e => e.fn_number == SYNAPTICS_RMI4_F35) = false := by
      rw [List.any_eq_false]
      intro e hmem
      simp [hnone e hmem]
    rw [hany]
    simp [scanFinish]

/-- Witness for C6: a descriptor table holding only an F35 entry scans
successfully into microloader mode. -/
theorem scan_pdt_microloader_witness :
    fwu_scan_pdt [{ fn_number := 0x35, fn_version := 0, intr_src_count := 1 }] =
      ScanResult.ok true :=
  (scan_pdt_microloader [{ fn_number := 0x35, fn_version := 0, intr_src_count := 1 }]
    (by decide)).1 (by decide)

/-- C7 counterexample: a 1,048,576-byte image needs `ceil(n/16) = 65536`
chunks, but `chunk_total` is an `unsigned short`, so the computed chunk count
wraps to 0 and `fwu_recovery_write_chunk` transmits no chunks at all. -/
theorem recovery_chunk_wrap :
    (fwu_recovery_write_chunk_trace (List.replicate 1048576 0)).length = 0
    ∧ (1048576 + 15) / 16 = 65536 := by
  constructor
  · unfold fwu_recovery_write_chunk_trace
    rw [List.length_map, List.length_range, List.length_replicate]
    decide
  · norm_num

/-- C7 amended: for images whose chunk count fits the 16-bit `chunk_total`
counter (all images under 1 MiB), the image of `n` bytes is split into
`ceil(n/16)` chunks — all of size 16 except a shorter final chunk when `n`
is not a multiple of 16 — and each transmitted chunk is one 17-byte register
write of the 16 zero-padded data bytes followed by the write-chunk command
byte; a 33-byte image yields exactly 3 writes with data sizes 16, 16 and 1,
the last zero-padded.  Images of 1 MiB and beyond wrap the 16-bit counter. -/
theorem recovery_write_chunk_amended (image : List Nat)
    (hfit : (image.length + 15) / 16 < 65536) :
    (fwu_recovery_write_chunk_trace image).length = (image.length + 15) / 16
    ∧ (∀ w ∈ fwu_recovery_write_chunk_trace image,
        w.length = 17 ∧ w.getLast? = some CMD_F35_WRITE_CHUNK)
    ∧ (∀ i, i + 1 < (image.length + 15) / 16 →
        recoveryChunkSize image.length i = 16)
    ∧ (image.length % 16 ≠ 0 →
        recoveryChunkSize image.length ((image.length + 15) / 16 - 1) = image.length % 16)
    ∧ fwu_recovery_write_chunk_trace (List.replicate 33 7) =
        [List.replicate 16 7 ++ [2], List.replicate 16 7 ++ [2],
          7 :: List.replicate 15 0 ++ [2]] := by
  have hct : recoveryChunkTotal image.length = (image.length + 15) / 16 := by
    unfold recoveryChunkTotal F35_CHUNK_SIZE
    by_cases h : image.length % 16 = 0
    · simp only [h, ne_eq, not_true_eq_false, if_false]
      omega
    · simp only [h, ne_eq, not_false_eq_true, if_true]
      omega
  have hsize : ∀ i, i < (image.length + 15) / 16 →
      16 * i + recoveryChunkSize image.length i ≤ image.length ∧
      recoveryChunkSize image.length i ≤ 16 := by
    intro i hi
    unfold recoveryChunkSize F35_CHUNK_SIZE
    rw [hct]
    split_ifs with h
    · omega
    · omega
  have hpay : ∀ i, i < (image.length + 15) / 16 →
      (recoveryChunkPayload image i).length = 16 := by
    intro i hi
    obtain ⟨hle, hle16⟩ := hsize i hi
    unfold recoveryChunkPayload F35_CHUNK_SIZE
    rw [List.length_append, List.length_take, List.length_drop,
      List.length_replicate]
    omega
  refine ⟨?_, ?_, ?_, ?_, by decide⟩
  · unfold fwu_recovery_write_chunk_trace
    rw [List.length_map, List.length_range, hct]
  · intro w hw
    unfold fwu_recovery_write_chunk_trace at hw
    rw [List.mem_map] at hw
    obtain ⟨i, hi, rfl⟩ := hw
    rw [List.mem_range, hct] at hi
    constructor
    · rw [List.length_append, hpay i hi]
      rfl
    · exact List.getLast?_concat _
  · intro i hi
    unfold recoveryChunkSize F35_CHUNK_SIZE
    rw [hct]
    split_ifs with h
    · omega
    · rfl
  · intro hmod
    unfold recoveryChunkSize F35_CHUNK_SIZE
    rw [hct]
    rw [if_pos ⟨hmod, rfl⟩]

/-- Witness for C7's amended theorem at the 33-byte image. -/
theorem recovery_write_chunk_amended_witness :
    (fwu_recovery_write_chunk_trace (List.replicate 33 7)).length =
      ((List.replicate (33 : Nat) (7 : Nat)).length + 15) / 16 :=
  (recovery_write_chunk_amended (List.replicate 33 7) (by decide)).1

/-- C8: at the failing input — the semaphore wait timed out, the fallback
interrupt-status read succeeds returning 0, and the flash-status re-read
shows a non-idle command with a nonzero status — `fwu_wait_for_idle` returns
0 (success): the `-ETIMEDOUT` stored in `retval` is unconditionally
overwritten by the return value of `fwu_read_interrupt_status`, so the
timed-out wait is not reported failed as the claim requires.  The second
conjunct is the half of the claim the code does honor: an idle command and
zero flash status after the re-read yield success. -/
theorem wait_for_idle_timeout_clobbered :
    fwu_wait_for_idle
      { timed_out := true, intr_read_ok := true, intr_status := 0,
        intr_read_err := -5, command := 1, flash_status := 1 } = 0
    ∧ fwu_wait_for_idle
      { timed_out := true, intr_read_ok := true, intr_status := 0,
        intr_read_err := -5, command := 0, flash_status := 0 } = 0 := by
  constructor
  · rfl
  · rfl

/-- C10: whenever the global handle is absent, the updater is uninitialized,
or the device is in microloader mode, the exported entry point returns
`-ENODEV`, leaves the state (including the stored image pointer) unchanged,
and performs no operation at all — for every possible reflash body. -/
theorem fw_updater_early_reject {α : Type}
    (start_reflash : UpdaterState → Int × UpdaterState × List α)
    (s : UpdaterState) (fw_data : List Nat)
    (h : s.handle_present = false ∨ s.initialized = false ∨ s.in_ub_mode = true) :
    synaptics_fw_updater start_reflash s fw_data = (-ENODEV, s, ([] : List α)) := by
  unfold synaptics_fw_updater
  rcases h with h | h | h
  · rw [if_pos h]
  · by_cases h1 : s.handle_present = false
    · rw [if_pos h1]
    · rw [if_neg h1, if_pos h]
  · by_cases h1 : s.handle_present = false
    · rw [if_pos h1]
    · rw [if_neg h1]
      by_cases h2 : s.initialized = false
      · rw [if_pos h2]
      · rw [if_neg h2, if_pos h]

/-- Witness for C10: a microloader-mode device is rejected with `-ENODEV`
and no state change. -/
theorem fw_updater_early_reject_witness :
    synaptics_fw_updater (fun s => (0, s, ([] : List Nat)))
      { handle_present := true, initialized := true, in_ub_mode := true, image := none }
      [1, 2] =
      (-ENODEV,
        { handle_present := true, initialized := true, in_ub_mode := true, image := none },
        []) :=
  fw_updater_early_reject _ _ _ (Or.inr (Or.inr rfl))

end SynDsxFwu
